import Mathlib

/-!
Go-URL-Shortener: a verification development of `MainServer.go`.

A shallow embedding of the request handler of the URL shortener and of the
functions it calls, followed by the properties of the alias generator, of the
collision check, of the creation flow and of the redirect resolver.

Modelling conventions.

* A Go `string` is a Lean `String`. Every string constant of the program is
  ASCII, so a character of the model is one byte of the Go string and `len`
  is `String.length`.
* The MongoDB collection is the list of its documents in insertion order.
  `FindOne` with the filter `shortened = x` returns the first document whose
  `shortened` field is `x`, or `ErrNoDocuments`; `InsertOne` appends.
* `log.Fatal`, a run-time panic and the exhaustion of the fuel of the one
  unbounded loop are the three ways in which a call does not return; they are
  the `Abort` values of the `Except` results.
* The global random source of `math/rand` is the stream of its future raw
  draws; it is threaded through the functions that consume it.
-/

namespace UrlShortener

/-! ## Constants (`MainServer.go`, lines 28-36) -/

/-- The charset for a shortened URL. -/
def CHARSET : String := "abcdefghijklmnopqrstuvwxyzABCDEFGHIJKLMNOPQRSTUVWXYZ1234567890"

/-- The length of a shortened URL (after the domain). -/
def LENGTH : Nat := 6

/-- The website port. -/
def PORT : Nat := 22222

/-- The domain IP. -/
def IP : String := "127.0.0.1"

/-- The value that `GetOriginalUrl` returns when no document is found. -/
def NO_SUCH_DOCUMENT_ERROR : String := "dnf"

/-- The status code `http.StatusSeeOther`. -/
def StatusSeeOther : Nat := 303

/-- The status code `http.StatusInternalServerError`. -/
def StatusInternalServerError : Nat := 500

/-- The status code `http.StatusMovedPermanently`. -/
def StatusMovedPermanently : Nat := 301

/-- The status code `http.StatusBadRequest`. -/
def StatusBadRequest : Nat := 400

/-! ## Data model -/

/-- A URL and its shortened version. The `_id` field of the Go struct is left
zero by the program (`omitempty`), assigned by the store and never read, so it
is not part of the model. -/
structure ShortPair where
  Url : String
  Shortened : String
deriving DecidableEq, Repr

/-- The URL pairs collection: its documents, in insertion order. -/
abbrev Collection := List ShortPair

/-- The ways in which a call does not return to its caller. -/
inductive Abort where
  /-- The function `log.Fatal` was called: the process exits. -/
  | fatal (msg : String)
  /-- A run-time panic (index or slice bound out of range, `Intn` of 0). -/
  | panic
  /-- The retry loop was still running when the fuel ran out. -/
  | outOfFuel
deriving DecidableEq, Repr

/-- The errors of a store operation. -/
inductive DbError where
  /-- The error `mongo.ErrNoDocuments`. -/
  | ErrNoDocuments
  /-- Any other error of the driver. -/
  | other (msg : String)
deriving DecidableEq, Repr

/-- The message of a store error, as `log.Fatal` prints it. -/
def DbError.msg : DbError → String
  | .ErrNoDocuments => "mongo: no documents in result"
  | .other m => m

/-- The call `collection.FindOne(ctx, bson.M{"shortened": shortUrl}).Decode`:
the first document whose `shortened` field equals `shortUrl`. -/
def FindOne (collection : Collection) (shortUrl : String) : Except DbError ShortPair :=
  match collection.find? (fun p => decide (p.Shortened = shortUrl)) with
  | some pair => .ok pair
  | none => .error .ErrNoDocuments

/-- The call `collection.InsertOne(ctx, newPair)`: the document is appended. -/
def InsertOne (collection : Collection) (newPair : ShortPair) : Except DbError Collection :=
  .ok (collection ++ [newPair])

/-! ## The random source -/

/-- The global random source: the stream of its future raw draws. -/
abbrev Rand := Nat → Nat

/-- The call `rand.Intn(n)`, by its contract: it panics if `n <= 0` and
otherwise returns a number of `[0, n)`, consuming one draw. -/
def Intn (n : Nat) (r : Rand) : Except Abort (Nat × Rand) :=
  if n = 0 then .error .panic else .ok (r 0 % n, fun k => r (k + 1))

/-! ## String helpers of the Go standard library -/

/-- The function `strings.HasPrefix`:
`len(s) >= len(prefix) && s[:len(prefix)] == prefix`. -/
def HasPrefix (s pre : String) : Bool :=
  decide (s.length ≥ pre.length) && decide (s.data.take pre.length = pre.data)

/-- The function `strings.HasSuffix`:
`len(s) >= len(suffix) && s[len(s)-len(suffix):] == suffix`. -/
def HasSuffix (s suf : String) : Bool :=
  decide (s.length ≥ suf.length) &&
    decide (s.data.drop (s.length - suf.length) = suf.data)

/-- The function `strings.Contains`: `substr` occurs at some position of `s`. -/
def Contains (s substr : String) : Bool :=
  s.data.tails.any (fun t => decide (t.take substr.length = substr.data))

/-- The function `strings.FieldsFunc`: the maximal non-empty runs of characters
that do not satisfy `f`. -/
def FieldsFunc (s : String) (f : Char → Bool) : List String :=
  ((s.data.splitOnP f).filter (fun field => !field.isEmpty)).map String.mk

/-- The function `isSlashRune` of `net/http`: `r == '/' || r == '\\'`. -/
def isSlashRune (r : Char) : Bool := r == '/' || r == '\\'

/-- The function `containsDotDot` of `net/http`: some element of the path,
between slashes, is `..`. -/
def containsDotDot (v : String) : Bool :=
  if !Contains v ".." then false
  else (FieldsFunc v isSlashRune).any (fun ent => decide (ent = ".."))

/-- The function `strconv.Itoa` on a non-negative `int`. -/
def Itoa (i : Nat) : String := Nat.repr i

/-! ## The functions of `MainServer.go` -/

/-- The loop of `GenerateShortenedUrl` with `n` iterations left:
`index := rand.Intn(len(CHARSET)); short += string(CHARSET[index])`. -/
def GenerateLoop : Nat → String → Rand → Except Abort (String × Rand)
  | 0, short, r => .ok (short, r)
  | n + 1, short, r =>
    match Intn CHARSET.length r with
    | .error e => .error e
    | .ok (index, r') =>
      match CHARSET.data[index]? with
      | none => .error .panic
      | some c => GenerateLoop n (short ++ String.singleton c) r'

/-- Returns a random sequence of chars from `CHARSET`, of length `LENGTH`. -/
def GenerateShortenedUrl (r : Rand) : Except Abort (String × Rand) :=
  GenerateLoop LENGTH "" r

/-- Returns true if the received shortened address is already in use. -/
def ShortAlreadyUsed (collection : Collection) (shortUrl : String) : Except Abort Bool :=
  match FindOne collection shortUrl with
  | .error .ErrNoDocuments => .ok false
  | .error e => .error (.fatal e.msg)
  | .ok _ => .ok true

/-- Adds a new document to the URLs collection. -/
def AddUrlPair (collection : Collection) (sourceUrl shortUrl : String) :
    Except Abort Collection :=
  match InsertOne collection { Url := sourceUrl, Shortened := shortUrl } with
  | .error e => .error (.fatal e.msg)
  | .ok collection' => .ok collection'

/-- Returns the original URL whose shortened version is the provided one. -/
def GetOriginalUrl (collection : Collection) (shortUrl : String) : Except Abort String :=
  match FindOne collection shortUrl with
  | .error .ErrNoDocuments => .ok NO_SUCH_DOCUMENT_ERROR
  | .error e => .error (.fatal e.msg)
  | .ok pair => .ok pair.Url

/-! ## The HTTP handler -/

/-- The part of `*http.Request` that the handler reads. -/
structure Request where
  /-- The HTTP method, `req.Method`. -/
  Method : String
  /-- The path of the requested URL, `req.URL.Path`. -/
  Path : String
  /-- The query of the requested URL, `req.URL.RawQuery`. -/
  RawQuery : String
  /-- The error of `req.ParseForm()`, if it fails. -/
  ParseForm : Option String
  /-- The function `req.FormValue`: the first value of a form field, or `""`. -/
  FormValue : String → String

/-- The template files of the server, as far as the handler depends on them:
the error of `template.ParseFiles` on a file, if it fails, and the error of
`tmpl.Execute` on the parsed file and a pair, if it fails. -/
structure Views where
  ParseFiles : String → Option String
  Execute : String → ShortPair → Option String

/-- What is written to the response writer. -/
inductive Response where
  /-- The named file is opened and its content served: the outcome of
  `http.ServeFile` on a request whose path passes the two checks of the
  library (see `ServeFile`). -/
  | File (name : String)
  /-- The function `localRedirect` of `net/http`: the header `Location` is set
  to `newPath` and the status `code` is written. -/
  | LocalRedirect (newPath : String) (code : Nat)
  /-- The call `http.Redirect(writer, req, url, code)`. -/
  | Redirect (url : String) (code : Nat)
  /-- The call `fmt.Fprintf(writer, ...)` with the formatted text. -/
  | Fprintf (text : String)
  /-- The call `http.Error(writer, msg, code)`. -/
  | Error (msg : String) (code : Nat)
  /-- A successful `tmpl.Execute(writer, data)` of the template file `fp`. -/
  | Execute (fp : String) (data : ShortPair)
deriving DecidableEq, Repr

/-- The call `http.ServeFile(writer, req, name)` of `net/http`, which reads the
path of the request before it serves the file: a path with a `..` element is
answered with `400 invalid URL path`, a path that ends in `/index.html` is
redirected to `./` (followed by the query, if any) with `301`, and only
otherwise the named file is opened and served. -/
def ServeFile (req : Request) (name : String) : Response :=
  if containsDotDot req.Path then .Error "invalid URL path" StatusBadRequest
  else if HasSuffix req.Path "/index.html" then
    .LocalRedirect (if req.RawQuery ≠ "" then "./" ++ "?" ++ req.RawQuery else "./")
      StatusMovedPermanently
  else .File name

/-- The global state of the server: the collection behind the global handle
`collection` and the global random source. -/
structure Server where
  collection : Collection
  rand : Rand

/-- The target of the redirect (lines 85-89): the original URL if it begins
with `http://` or `https://`, and otherwise the original URL after `http://`. -/
def RedirectTarget (originalUrl : String) : String :=
  if HasPrefix originalUrl "http://" || HasPrefix originalUrl "https://" then originalUrl
  else "http://" ++ originalUrl

/-- The slice expression `s[1:]`, which panics on the empty string. -/
def SliceFrom1 (s : String) : Except Abort String :=
  if s.length < 1 then .error .panic else .ok (String.mk (s.data.drop 1))

/-- The loop `for ShortAlreadyUsed(shortUrl) { shortUrl = GenerateShortenedUrl() }`
(lines 108-110). The Go loop has no bound; the model runs at most `fuel`
regenerations and aborts with `outOfFuel` if the loop is still running then. -/
def RetryLoop (collection : Collection) : Nat → String → Rand → Except Abort (String × Rand)
  | 0, shortUrl, r =>
    match ShortAlreadyUsed collection shortUrl with
    | .error e => .error e
    | .ok false => .ok (shortUrl, r)
    | .ok true => .error .outOfFuel
  | fuel + 1, shortUrl, r =>
    match ShortAlreadyUsed collection shortUrl with
    | .error e => .error e
    | .ok false => .ok (shortUrl, r)
    | .ok true =>
      match GenerateShortenedUrl r with
      | .error e => .error e
      | .ok (shortUrl', r') => RetryLoop collection fuel shortUrl' r'

/-- The `POST` case of the handler (lines 98-127). -/
def HandlePost (fuel : Nat) (views : Views) (req : Request) (s : Server) :
    Except Abort (Response × Server) :=
  match req.ParseForm with
  | some err => .ok (.Fprintf ("ParseForm() err: " ++ err), s)
  | none =>
    let sourceUrl := req.FormValue "source_url"
    match GenerateShortenedUrl s.rand with
    | .error e => .error e
    | .ok (shortUrl0, r0) =>
      match RetryLoop s.collection fuel shortUrl0 r0 with
      | .error e => .error e
      | .ok (shortUrl, r) =>
        match AddUrlPair s.collection sourceUrl shortUrl with
        | .error e => .error e
        | .ok collection' =>
          let s' : Server := { collection := collection', rand := r }
          let pair : ShortPair :=
            { Url := sourceUrl, Shortened := IP ++ ":" ++ Itoa PORT ++ "/" ++ shortUrl }
          let fp := "views/pair.html"
          match views.ParseFiles fp with
          | some err => .ok (.Error err StatusInternalServerError, s')
          | none =>
            match views.Execute fp pair with
            | some err => .ok (.Error err StatusInternalServerError, s')
            | none => .ok (.Execute fp pair, s')

/-- The handler of all website requests (lines 75-132). -/
def HandleWebSite (fuel : Nat) (views : Views) (req : Request) (s : Server) :
    Except Abort (Response × Server) :=
  if req.Path ≠ "/" then
    match SliceFrom1 req.Path with
    | .error e => .error e
    | .ok shortUrl =>
      match GetOriginalUrl s.collection shortUrl with
      | .error e => .error e
      | .ok originalUrl =>
        if originalUrl = NO_SUCH_DOCUMENT_ERROR then
          .ok (ServeFile req "./views/error.html", s)
        else
          .ok (.Redirect (RedirectTarget originalUrl) StatusSeeOther, s)
  else if req.Method = "GET" then
    .ok (ServeFile req "./views/index.html", s)
  else if req.Method = "POST" then
    HandlePost fuel views req s
  else
    .ok (.Fprintf "Sorry, Only GET/POST methods are supported. ", s)

/-! ## Derived notions used in the statements -/

/-- No two documents of the collection have the same alias. -/
def AliasesDistinct (collection : Collection) : Prop :=
  (collection.map ShortPair.Shortened).Nodup

/-- Some document of the collection has the alias `shortUrl`. -/
def HasAlias (collection : Collection) (shortUrl : String) : Prop :=
  ∃ p ∈ collection, p.Shortened = shortUrl

/-- The random source after `k` calls of `GenerateShortenedUrl`. -/
def RandAfter (k : Nat) (r : Rand) : Rand := fun i => r (i + k * LENGTH)

/-- The character of `CHARSET` that the raw draw `d` selects. -/
def CharOfDraw (d : Nat) : Char := CHARSET.data.getD (d % CHARSET.length) 'a'

/-- The characters of the alias made from the first `n` draws of `r`. -/
def AliasChars (n : Nat) (r : Rand) : List Char :=
  (List.range n).map (fun i => CharOfDraw (r i))

/-- The `k`-th alias that successive calls of `GenerateShortenedUrl` return,
counted from 0, when the first call starts from the random source `r`. -/
def Candidate (k : Nat) (r : Rand) : String :=
  match GenerateShortenedUrl (RandAfter k r) with
  | .ok (shortUrl, _) => shortUrl
  | .error _ => ""

instance (collection : Collection) (shortUrl : String) :
    Decidable (HasAlias collection shortUrl) := by
  unfold HasAlias
  infer_instance

/-- The response of a creation (lines 117-127), given the outcome of the two
template calls. -/
def PostResponse (views : Views) (pair : ShortPair) : Response :=
  match views.ParseFiles "views/pair.html" with
  | some err => .Error err StatusInternalServerError
  | none =>
    match views.Execute "views/pair.html" pair with
    | some err => .Error err StatusInternalServerError
    | none => .Execute "views/pair.html" pair

/-- The set of the strings that `GenerateShortenedUrl` can return, over all
outcomes of the random source. -/
def Generated : Set String :=
  {short | ∃ r r', GenerateShortenedUrl r = .ok (short, r')}

/-- The set of all strings of length `LENGTH` over `CHARSET`. -/
def AliasSpace : Set String :=
  {short | short.length = LENGTH ∧ ∀ c ∈ short.data, c ∈ CHARSET.data}

/-- A random source whose first `LENGTH` draws are the given indices. -/
def RandOfIndices (idx : Fin LENGTH → Fin CHARSET.length) : Rand :=
  fun i => if h : i < LENGTH then (idx ⟨i, h⟩).val else 0

/-- The alias whose characters are `CHARSET[idx 0]`, ..., `CHARSET[idx 5]`. -/
def AliasOfIndices (idx : Fin LENGTH → Fin CHARSET.length) : String :=
  String.mk (AliasChars LENGTH (RandOfIndices idx))

/-- A `GET` request for a path. -/
def GetRequest (path : String) : Request :=
  { Method := "GET", Path := path, RawQuery := "", ParseForm := none,
    FormValue := fun _ => "" }

/-- A `POST /` request whose form has the field `source_url`. -/
def PostRequest (sourceUrl : String) : Request :=
  { Method := "POST", Path := "/", RawQuery := "", ParseForm := none,
    FormValue := fun k => if k = "source_url" then sourceUrl else "" }

/-- The template files are present and render without error. -/
def ViewsOk : Views := { ParseFiles := fun _ => none, Execute := fun _ _ => none }

/-- A sequence of `POST /` creations, one per submitted URL, run one after the
other on the server state. -/
def RunCreations (fuel : Nat) (views : Views) : List String → Server → Except Abort Server
  | [], s => .ok s
  | sourceUrl :: rest, s =>
    match HandleWebSite fuel views (PostRequest sourceUrl) s with
    | .error e => .error e
    | .ok (_, s') => RunCreations fuel views rest s'

end UrlShortener

namespace UrlShortener

/-! ## The alias generator -/

theorem CHARSET_length : CHARSET.length = 62 := by decide

theorem CHARSET_nodup : CHARSET.data.Nodup := by decide

theorem CharOfDraw_lookup (d : Nat) :
    CHARSET.data[d % CHARSET.length]? = some (CharOfDraw d) := by
  have h : d % CHARSET.length < CHARSET.data.length := Nat.mod_lt _ (by decide)
  simp [CharOfDraw, List.getD, List.getElem?_eq_getElem h]

theorem CharOfDraw_mem (d : Nat) : CharOfDraw d ∈ CHARSET.data :=
  List.getElem?_mem (CharOfDraw_lookup d)

theorem AliasChars_succ (n : Nat) (r : Rand) :
    AliasChars (n + 1) r = CharOfDraw (r 0) :: AliasChars n (fun k => r (k + 1)) := by
  simp [AliasChars, List.range_succ_eq_map, List.map_map, Function.comp_def]

theorem AliasChars_length (n : Nat) (r : Rand) : (AliasChars n r).length = n := by
  simp [AliasChars]

theorem AliasChars_mem (n : Nat) (r : Rand) : ∀ c ∈ AliasChars n r, c ∈ CHARSET.data := by
  intro c hc
  simp only [AliasChars, List.mem_map] at hc
  obtain ⟨i, _, rfl⟩ := hc
  exact CharOfDraw_mem _

theorem GenerateLoop_eq (n : Nat) : ∀ (short : String) (r : Rand),
    GenerateLoop n short r
      = .ok (short ++ String.mk (AliasChars n r), fun k => r (k + n)) := by
  induction n with
  | zero =>
    intro short r
    simp only [GenerateLoop, AliasChars, List.range_zero, List.map_nil, Nat.add_zero]
    congr 2
    exact String.ext (by simp)
  | succ n ih =>
    intro short r
    have hI : Intn CHARSET.length r = .ok (r 0 % CHARSET.length, fun k => r (k + 1)) := by
      simp [Intn, CHARSET_length]
    simp only [GenerateLoop, hI, CharOfDraw_lookup, ih, AliasChars_succ]
    have h1 : short ++ String.singleton (CharOfDraw (r 0))
          ++ String.mk (AliasChars n (fun k => r (k + 1)))
        = short ++ String.mk (CharOfDraw (r 0) :: AliasChars n (fun k => r (k + 1))) :=
      String.ext (by simp [String.singleton])
    have h2 : (fun k => r (k + n + 1)) = (fun k => r (k + (n + 1))) := rfl
    rw [h1, h2]

theorem GenerateShortenedUrl_eq (r : Rand) :
    GenerateShortenedUrl r = .ok (String.mk (AliasChars LENGTH r), RandAfter 1 r) := by
  have h1 : "" ++ String.mk (AliasChars LENGTH r) = String.mk (AliasChars LENGTH r) :=
    String.ext (by simp)
  have h2 : (fun k => r (k + LENGTH)) = RandAfter 1 r := by
    funext k
    simp [RandAfter]
  rw [GenerateShortenedUrl, GenerateLoop_eq, h1, h2]

theorem Candidate_eq (k : Nat) (r : Rand) :
    Candidate k r = String.mk (AliasChars LENGTH (RandAfter k r)) := by
  simp [Candidate, GenerateShortenedUrl_eq]

theorem RandAfter_zero (r : Rand) : RandAfter 0 r = r := by
  funext i
  simp [RandAfter]

theorem RandAfter_one_after (k : Nat) (r : Rand) :
    RandAfter 1 (RandAfter k r) = RandAfter (k + 1) r := by
  funext i
  simp only [RandAfter]
  congr 1
  ring

theorem GenerateShortenedUrl_after (k : Nat) (r : Rand) :
    GenerateShortenedUrl (RandAfter k r) = .ok (Candidate k r, RandAfter (k + 1) r) := by
  rw [GenerateShortenedUrl_eq, Candidate_eq, RandAfter_one_after]

theorem CHARSET_utf8Size : ∀ c ∈ CHARSET.data, c.utf8Size = 1 := by decide

theorem utf8ByteSize_of_ascii : ∀ (l : List Char), (∀ c ∈ l, c.utf8Size = 1) →
    (String.mk l).utf8ByteSize = l.length := by
  intro l
  induction l with
  | nil => intro _; rfl
  | cons c l ih =>
    intro h
    have hc : c.utf8Size = 1 := h c (List.mem_cons_self _ _)
    have hl := ih (fun d hd => h d (List.mem_cons_of_mem _ hd))
    simp only [String.utf8ByteSize, String.utf8ByteSize.go, List.length_cons] at hl ⊢
    omega

/-! ## The store -/

theorem FindOne_absent (collection : Collection) (shortUrl : String)
    (h : ¬ HasAlias collection shortUrl) :
    FindOne collection shortUrl = .error .ErrNoDocuments := by
  have hf : collection.find? (fun p => decide (p.Shortened = shortUrl)) = none := by
    rw [List.find?_eq_none]
    intro p hp
    simp only [decide_eq_true_eq]
    intro hEq
    exact h ⟨p, hp, hEq⟩
  simp [FindOne, hf]

theorem FindOne_present (collection : Collection) (shortUrl : String)
    (h : HasAlias collection shortUrl) :
    ∃ pair, pair ∈ collection ∧ pair.Shortened = shortUrl ∧
      FindOne collection shortUrl = .ok pair := by
  cases hf : collection.find? (fun p => decide (p.Shortened = shortUrl)) with
  | none =>
    rw [List.find?_eq_none] at hf
    obtain ⟨p, hp, hEq⟩ := h
    exact absurd hEq (by simpa using hf p hp)
  | some pair =>
    refine ⟨pair, List.mem_of_find?_eq_some hf, ?_, by simp [FindOne, hf]⟩
    simpa using List.find?_some hf

theorem FindOne_append_new (collection : Collection) (sourceUrl shortUrl : String)
    (h : ¬ HasAlias collection shortUrl) :
    FindOne (collection ++ [{ Url := sourceUrl, Shortened := shortUrl }]) shortUrl
      = .ok { Url := sourceUrl, Shortened := shortUrl } := by
  have hf : collection.find? (fun p => decide (p.Shortened = shortUrl)) = none := by
    rw [List.find?_eq_none]
    intro p hp
    simp only [decide_eq_true_eq]
    intro hEq
    exact h ⟨p, hp, hEq⟩
  simp [FindOne, List.find?_append, hf]

theorem ShortAlreadyUsed_eq (collection : Collection) (shortUrl : String) :
    ShortAlreadyUsed collection shortUrl = .ok (decide (HasAlias collection shortUrl)) := by
  by_cases h : HasAlias collection shortUrl
  · obtain ⟨pair, _, _, hf⟩ := FindOne_present collection shortUrl h
    simp [ShortAlreadyUsed, hf, h]
  · simp [ShortAlreadyUsed, FindOne_absent collection shortUrl h, h]

theorem AddUrlPair_eq (collection : Collection) (sourceUrl shortUrl : String) :
    AddUrlPair collection sourceUrl shortUrl
      = .ok (collection ++ [{ Url := sourceUrl, Shortened := shortUrl }]) := rfl

theorem AliasesDistinct_append (collection : Collection) (sourceUrl shortUrl : String)
    (hd : AliasesDistinct collection) (h : ¬ HasAlias collection shortUrl) :
    AliasesDistinct (collection ++ [{ Url := sourceUrl, Shortened := shortUrl }]) := by
  unfold AliasesDistinct at hd ⊢
  rw [List.map_append, List.nodup_append]
  refine ⟨hd, by simp, ?_⟩
  intro a ha hb
  simp only [List.map_cons, List.map_nil, List.mem_singleton] at hb
  subst hb
  obtain ⟨p, hp, hEq⟩ := List.mem_map.1 ha
  exact h ⟨p, hp, hEq⟩

/-! ## The retry loop -/

theorem RetryLoop_sound (collection : Collection) (r : Rand) :
    ∀ (fuel j : Nat) (shortUrl : String) (r' : Rand),
      RetryLoop collection fuel (Candidate j r) (RandAfter (j + 1) r) = .ok (shortUrl, r') →
      ∃ k, j ≤ k ∧ k ≤ j + fuel ∧ shortUrl = Candidate k r ∧ r' = RandAfter (k + 1) r ∧
        ¬ HasAlias collection shortUrl ∧
        ∀ i, j ≤ i → i < k → HasAlias collection (Candidate i r) := by
  intro fuel
  induction fuel with
  | zero =>
    intro j shortUrl r' h
    simp only [RetryLoop, ShortAlreadyUsed_eq] at h
    by_cases hu : HasAlias collection (Candidate j r)
    · simp [hu] at h
    · simp only [hu, decide_False, Except.ok.injEq, Prod.mk.injEq] at h
      obtain ⟨h1, h2⟩ := h
      subst h1
      exact ⟨j, le_refl _, by omega, rfl, h2.symm, hu, fun i h1 h2 => by omega⟩
  | succ fuel ih =>
    intro j shortUrl r' h
    simp only [RetryLoop, ShortAlreadyUsed_eq] at h
    by_cases hu : HasAlias collection (Candidate j r)
    · simp only [hu, decide_True, GenerateShortenedUrl_after] at h
      obtain ⟨k, hk1, hk2, hk3, hk4, hk5, hk6⟩ := ih (j + 1) shortUrl r' h
      refine ⟨k, by omega, by omega, hk3, hk4, hk5, ?_⟩
      intro i hi1 hi2
      by_cases hij : i = j
      · subst hij
        exact hu
      · exact hk6 i (by omega) hi2
    · simp only [hu, decide_False, Except.ok.injEq, Prod.mk.injEq] at h
      obtain ⟨h1, h2⟩ := h
      subst h1
      exact ⟨j, le_refl _, by omega, rfl, h2.symm, hu, fun i h1 h2 => by omega⟩

theorem RetryLoop_free (collection : Collection) (fuel : Nat) (shortUrl : String) (r : Rand)
    (h : ¬ HasAlias collection shortUrl) :
    RetryLoop collection fuel shortUrl r = .ok (shortUrl, r) := by
  cases fuel <;> simp [RetryLoop, ShortAlreadyUsed_eq, h]

theorem RetryLoop_complete (collection : Collection) (r : Rand) :
    ∀ (d j fuel : Nat), d ≤ fuel →
      ¬ HasAlias collection (Candidate (j + d) r) →
      (∀ i, j ≤ i → i < j + d → HasAlias collection (Candidate i r)) →
      RetryLoop collection fuel (Candidate j r) (RandAfter (j + 1) r)
        = .ok (Candidate (j + d) r, RandAfter (j + d + 1) r) := by
  intro d
  induction d with
  | zero =>
    intro j fuel _ hfree _
    simp only [Nat.add_zero] at hfree ⊢
    exact RetryLoop_free collection fuel _ _ hfree
  | succ d ih =>
    intro j fuel hle hfree hused
    obtain ⟨fuel', rfl⟩ : ∃ f, fuel = f + 1 := ⟨fuel - 1, by omega⟩
    simp only [RetryLoop, ShortAlreadyUsed_eq]
    have hj : HasAlias collection (Candidate j r) := hused j (le_refl _) (by omega)
    simp only [hj, decide_True, GenerateShortenedUrl_after]
    have e : j + (d + 1) = j + 1 + d := by omega
    rw [e] at hfree ⊢
    exact ih (j + 1) fuel' (by omega) hfree (fun i h1 h2 => hused i (by omega) (by omega))

/-! ## The scheme rule and the path of a request -/

theorem HasPrefix_append_self (pre u : String) : HasPrefix (pre ++ u) pre = true := by
  have hl : (pre ++ u).length = pre.length + u.length := String.length_append pre u
  have ht : (pre ++ u).data.take pre.length = pre.data := by
    rw [String.data_append]
    exact List.take_left' rfl
  simp [HasPrefix, hl, ht]

theorem HasPrefix_http_append (u : String) : HasPrefix ("http://" ++ u) "http://" = true :=
  HasPrefix_append_self "http://" u

theorem RedirectTarget_scheme (u : String) :
    HasPrefix (RedirectTarget u) "http://" = true ∨
      HasPrefix (RedirectTarget u) "https://" = true := by
  unfold RedirectTarget
  split
  · rename_i h
    simpa using h
  · exact Or.inl (HasPrefix_http_append u)

theorem RedirectTarget_of_scheme (u : String)
    (h : HasPrefix u "http://" = true ∨ HasPrefix u "https://" = true) :
    RedirectTarget u = u := by
  unfold RedirectTarget
  rw [if_pos (by simpa using h)]

theorem RedirectTarget_of_no_scheme (u : String)
    (h1 : HasPrefix u "http://" = false) (h2 : HasPrefix u "https://" = false) :
    RedirectTarget u = "http://" ++ u := by
  unfold RedirectTarget
  rw [if_neg (by simp [h1, h2])]

theorem slash_data : ("/" : String).data = ['/'] := rfl

theorem slash_append_ne_root (shortUrl : String) (h : shortUrl ≠ "") :
    "/" ++ shortUrl ≠ "/" := by
  intro hEq
  apply h
  have hd := congrArg String.data hEq
  rw [String.data_append, slash_data] at hd
  have hd' : shortUrl.data = [] := by simpa using hd
  exact String.ext hd'

theorem SliceFrom1_slash_append (shortUrl : String) :
    SliceFrom1 ("/" ++ shortUrl) = .ok shortUrl := by
  have hl : ("/" ++ shortUrl).length = 1 + shortUrl.length := String.length_append _ _
  have h : ¬ ("/" ++ shortUrl).length < 1 := by omega
  have hd : ("/" ++ shortUrl).data.drop 1 = shortUrl.data := by
    rw [String.data_append, slash_data]
    rfl
  simp only [SliceFrom1, h, if_false, hd]

theorem SliceFrom1_of_ne_empty (path : String) (h : path ≠ "") :
    SliceFrom1 path = .ok (String.mk (path.data.drop 1)) := by
  have hl : ¬ path.length < 1 := by
    intro hlt
    apply h
    have h0 : path.data.length = 0 := by
      have : path.data.length = path.length := rfl
      omega
    exact String.ext (List.length_eq_zero.1 h0)
  simp only [SliceFrom1, hl, if_false]

/-! ## The handler -/

theorem GetOriginalUrl_absent (collection : Collection) (shortUrl : String)
    (h : ¬ HasAlias collection shortUrl) :
    GetOriginalUrl collection shortUrl = .ok NO_SUCH_DOCUMENT_ERROR := by
  simp [GetOriginalUrl, FindOne_absent collection shortUrl h]

theorem GetOriginalUrl_total (collection : Collection) (shortUrl : String) :
    ∃ originalUrl, GetOriginalUrl collection shortUrl = .ok originalUrl ∧
      (originalUrl = NO_SUCH_DOCUMENT_ERROR ∨
        ∃ pair ∈ collection, pair.Shortened = shortUrl ∧ pair.Url = originalUrl) := by
  by_cases h : HasAlias collection shortUrl
  · obtain ⟨pair, hm, hs, hf⟩ := FindOne_present collection shortUrl h
    exact ⟨pair.Url, by simp [GetOriginalUrl, hf], Or.inr ⟨pair, hm, hs, rfl⟩⟩
  · exact ⟨_, GetOriginalUrl_absent collection shortUrl h, Or.inl rfl⟩

theorem HandleWebSite_resolve (fuel : Nat) (views : Views) (req : Request) (s : Server)
    (shortUrl originalUrl : String) (hroot : req.Path ≠ "/")
    (hslice : SliceFrom1 req.Path = .ok shortUrl)
    (hget : GetOriginalUrl s.collection shortUrl = .ok originalUrl) :
    HandleWebSite fuel views req s
      = .ok (if originalUrl = NO_SUCH_DOCUMENT_ERROR then ServeFile req "./views/error.html"
             else .Redirect (RedirectTarget originalUrl) StatusSeeOther, s) := by
  simp only [HandleWebSite, hroot, ne_eq, not_false_eq_true, if_true, hslice, hget]
  split <;> rfl

theorem HandleWebSite_post (fuel : Nat) (views : Views) (req : Request) (s : Server)
    (hroot : req.Path = "/") (hmethod : req.Method = "POST") :
    HandleWebSite fuel views req s = HandlePost fuel views req s := by
  simp [HandleWebSite, hroot, hmethod]

theorem shown_url_eq (shortUrl : String) :
    IP ++ ":" ++ Itoa PORT ++ "/" ++ shortUrl = "127.0.0.1:22222/" ++ shortUrl := by
  have h : IP ++ ":" ++ Itoa PORT ++ "/" = "127.0.0.1:22222/" := by decide
  rw [h]

theorem HandlePost_eq (fuel : Nat) (views : Views) (req : Request) (s : Server)
    (hform : req.ParseForm = none) :
    HandlePost fuel views req s =
      match RetryLoop s.collection fuel (Candidate 0 s.rand) (RandAfter 1 s.rand) with
      | .error e => .error e
      | .ok (shortUrl, r) =>
        .ok (PostResponse views
              { Url := req.FormValue "source_url",
                Shortened := IP ++ ":" ++ Itoa PORT ++ "/" ++ shortUrl },
             { collection := s.collection ++
                 [{ Url := req.FormValue "source_url", Shortened := shortUrl }],
               rand := r }) := by
  have hg : GenerateShortenedUrl s.rand = .ok (Candidate 0 s.rand, RandAfter 1 s.rand) := by
    have := GenerateShortenedUrl_after 0 s.rand
    rwa [RandAfter_zero] at this
  simp only [HandlePost, hform, hg, AddUrlPair_eq]
  cases hr : RetryLoop s.collection fuel (Candidate 0 s.rand) (RandAfter 1 s.rand) with
  | error e => rfl
  | ok v =>
    obtain ⟨shortUrl, r⟩ := v
    simp only [PostResponse]
    cases views.ParseFiles "views/pair.html" with
    | some err => rfl
    | none =>
      simp only
      cases views.Execute "views/pair.html"
          { Url := req.FormValue "source_url",
            Shortened := IP ++ ":" ++ Itoa PORT ++ "/" ++ shortUrl } with
      | some err => rfl
      | none => rfl

theorem HandlePost_ok (fuel : Nat) (views : Views) (req : Request) (s : Server)
    (resp : Response) (s' : Server) (hform : req.ParseForm = none)
    (h : HandlePost fuel views req s = .ok (resp, s')) :
    ∃ k, k ≤ fuel ∧ ¬ HasAlias s.collection (Candidate k s.rand) ∧
      (∀ i, i < k → HasAlias s.collection (Candidate i s.rand)) ∧
      s'.collection = s.collection ++
        [{ Url := req.FormValue "source_url", Shortened := Candidate k s.rand }] ∧
      s'.rand = RandAfter (k + 1) s.rand ∧
      resp = PostResponse views
        { Url := req.FormValue "source_url",
          Shortened := "127.0.0.1:22222/" ++ Candidate k s.rand } := by
  rw [HandlePost_eq fuel views req s hform] at h
  cases hr : RetryLoop s.collection fuel (Candidate 0 s.rand) (RandAfter 1 s.rand) with
  | error e => simp [hr] at h
  | ok v =>
    obtain ⟨shortUrl, r⟩ := v
    obtain ⟨k, _, hk2, hk3, hk4, hk5, hk6⟩ := RetryLoop_sound s.collection s.rand fuel 0 shortUrl r hr
    simp only [hr, Except.ok.injEq, Prod.mk.injEq] at h
    obtain ⟨h1, h2⟩ := h
    subst hk3
    subst hk4
    refine ⟨k, by omega, hk5, fun i hi => hk6 i (Nat.zero_le _) hi, ?_, ?_, ?_⟩
    · rw [← h2]
    · rw [← h2]
    · rw [← h1, shown_url_eq]

theorem HandlePost_complete (fuel : Nat) (views : Views) (req : Request) (s : Server)
    (k : Nat) (hform : req.ParseForm = none) (hk : k ≤ fuel)
    (hfree : ¬ HasAlias s.collection (Candidate k s.rand))
    (hused : ∀ i, i < k → HasAlias s.collection (Candidate i s.rand)) :
    HandlePost fuel views req s =
      .ok (PostResponse views
            { Url := req.FormValue "source_url",
              Shortened := "127.0.0.1:22222/" ++ Candidate k s.rand },
           { collection := s.collection ++
               [{ Url := req.FormValue "source_url", Shortened := Candidate k s.rand }],
             rand := RandAfter (k + 1) s.rand }) := by
  have hr := RetryLoop_complete s.collection s.rand k 0 fuel hk
    (by simpa using hfree) (fun i _ hi => hused i (by omega))
  simp only [Nat.zero_add] at hr
  rw [HandlePost_eq fuel views req s hform, hr]
  simp only [shown_url_eq]

theorem Candidate_length (k : Nat) (r : Rand) : (Candidate k r).length = 6 := by
  rw [Candidate_eq]
  exact AliasChars_length LENGTH _

theorem Candidate_mem (k : Nat) (r : Rand) : ∀ c ∈ (Candidate k r).data, c ∈ CHARSET.data := by
  rw [Candidate_eq]
  exact AliasChars_mem LENGTH _

/-! ## The claims -/

/-- C1: for every outcome of the random source, `GenerateShortenedUrl` returns,
and the string it returns has length exactly 6 (`LENGTH`), in characters and in
bytes, and each of its characters is a member of `CHARSET`. -/
theorem GenerateShortenedUrl_length_and_charset (r : Rand) :
    ∃ short r', GenerateShortenedUrl r = .ok (short, r') ∧
      LENGTH = 6 ∧ short.length = LENGTH ∧ short.utf8ByteSize = LENGTH ∧
      ∀ c ∈ short.data, c ∈ CHARSET.data := by
  refine ⟨_, _, GenerateShortenedUrl_eq r, rfl, AliasChars_length LENGTH r, ?_,
    AliasChars_mem LENGTH r⟩
  rw [utf8ByteSize_of_ascii _ (fun c hc => CHARSET_utf8Size c (AliasChars_mem LENGTH r c hc))]
  exact AliasChars_length LENGTH r

theorem HandleWebSite_creation_distinct (fuel : Nat) (views : Views) (sourceUrl : String)
    (s s' : Server) (resp : Response)
    (h : HandleWebSite fuel views (PostRequest sourceUrl) s = .ok (resp, s'))
    (hd : AliasesDistinct s.collection) :
    AliasesDistinct s'.collection ∧ s'.collection.length = s.collection.length + 1 := by
  rw [HandleWebSite_post fuel views _ s rfl rfl] at h
  obtain ⟨k, _, hfree, _, hc, _, _⟩ := HandlePost_ok fuel views _ s resp s' rfl h
  rw [hc]
  exact ⟨AliasesDistinct_append _ _ _ hd hfree, by simp⟩

/-- C2: alias uniqueness is an invariant of the store under the creation flow:
if the aliases of the stored pairs are pairwise distinct (as in the empty
store) and a sequence of N `POST /` creations, for any submitted URLs, any
template outcome and any random source, runs to completion, then the store
holds N more pairs and the aliases of all stored pairs are pairwise distinct. -/
theorem RunCreations_aliases_distinct (fuel : Nat) (views : Views) (urls : List String) :
    ∀ (s s' : Server), AliasesDistinct s.collection →
      RunCreations fuel views urls s = .ok s' →
      AliasesDistinct s'.collection ∧
        s'.collection.length = s.collection.length + urls.length := by
  induction urls with
  | nil =>
    intro s s' hd h
    simp only [RunCreations, Except.ok.injEq] at h
    subst h
    exact ⟨hd, by simp⟩
  | cons u rest ih =>
    intro s s' hd h
    simp only [RunCreations] at h
    cases h1 : HandleWebSite fuel views (PostRequest u) s with
    | error e => simp [h1] at h
    | ok v =>
      obtain ⟨resp, s1⟩ := v
      simp only [h1] at h
      obtain ⟨hd1, hl1⟩ := HandleWebSite_creation_distinct fuel views u s s1 resp h1 hd
      obtain ⟨hd2, hl2⟩ := ih s1 s' hd1 h
      refine ⟨hd2, ?_⟩
      rw [hl2, hl1, List.length_cons]
      omega

/-- Witness of C2: two creations on a store that already holds one pair, the
first of which collides once with the stored alias and retries. -/
theorem RunCreations_aliases_distinct_witness :
    AliasesDistinct [{ Url := "x", Shortened := "ahovCJ" }] ∧
    RunCreations 1 ViewsOk ["example.com", "https://example.com"]
        { collection := [{ Url := "x", Shortened := "ahovCJ" }], rand := fun k => k * 7 }
      = .ok { collection := [{ Url := "x", Shortened := "ahovCJ" },
                             { Url := "example.com", Shortened := "QX5bip" },
                             { Url := "https://example.com", Shortened := "wDKRY6" }],
              rand := RandAfter 3 (fun k => k * 7) } ∧
    AliasesDistinct [{ Url := "x", Shortened := "ahovCJ" },
                     { Url := "example.com", Shortened := "QX5bip" },
                     { Url := "https://example.com", Shortened := "wDKRY6" }] :=
  ⟨by unfold AliasesDistinct; decide, rfl,
   (RunCreations_aliases_distinct 1 ViewsOk ["example.com", "https://example.com"]
      { collection := [{ Url := "x", Shortened := "ahovCJ" }], rand := fun k => k * 7 }
      { collection := [{ Url := "x", Shortened := "ahovCJ" },
                       { Url := "example.com", Shortened := "QX5bip" },
                       { Url := "https://example.com", Shortened := "wDKRY6" }],
        rand := RandAfter 3 (fun k => k * 7) }
      (by unfold AliasesDistinct; decide) rfl).1⟩

/-- C6: the alias chosen by the creation flow is never one already in the
store. A `POST /` creation returns exactly when, within the fuel, some generated
candidate is the alias of no stored pair; the alias passed to `AddUrlPair` is
then the first such candidate, so that on a store that holds the alias
`"abc123"` the alias of the added pair is not `"abc123"`. -/
theorem creation_alias_first_unused (fuel : Nat) (views : Views) (req : Request)
    (s s' : Server) (resp : Response)
    (hroot : req.Path = "/") (hmethod : req.Method = "POST") (hform : req.ParseForm = none) :
    (HandleWebSite fuel views req s = .ok (resp, s') ↔
      ∃ k, k ≤ fuel ∧
        (∀ i, i < k → HasAlias s.collection (Candidate i s.rand)) ∧
        ¬ HasAlias s.collection (Candidate k s.rand) ∧
        AddUrlPair s.collection (req.FormValue "source_url") (Candidate k s.rand)
          = .ok s'.collection ∧
        s'.rand = RandAfter (k + 1) s.rand ∧
        resp = PostResponse views
          { Url := req.FormValue "source_url",
            Shortened := "127.0.0.1:22222/" ++ Candidate k s.rand }) ∧
    (HandleWebSite fuel views req s = .ok (resp, s') → HasAlias s.collection "abc123" →
      ∀ sourceUrl shortUrl,
        s'.collection = s.collection ++ [{ Url := sourceUrl, Shortened := shortUrl }] →
        shortUrl ≠ "abc123") := by
  rw [HandleWebSite_post fuel views req s hroot hmethod]
  refine ⟨⟨?_, ?_⟩, ?_⟩
  · intro h
    obtain ⟨k, hk, hfree, hused, hc, hr, hresp⟩ := HandlePost_ok fuel views req s resp s' hform h
    exact ⟨k, hk, hused, hfree, by rw [AddUrlPair_eq, hc], hr, hresp⟩
  · rintro ⟨k, hk, hused, hfree, hc, hr, hresp⟩
    rw [HandlePost_complete fuel views req s k hform hk hfree hused, hresp]
    rw [AddUrlPair_eq, Except.ok.injEq] at hc
    obtain ⟨c', r'⟩ := s'
    simp only at hc hr
    rw [hc, hr]
  · intro h hseed sourceUrl shortUrl hs'
    obtain ⟨k, _, hfree, _, hc, _, _⟩ := HandlePost_ok fuel views req s resp s' hform h
    rw [hc] at hs'
    have hp := List.append_cancel_left hs'
    simp only [List.cons.injEq, ShortPair.mk.injEq, and_true] at hp
    intro hEq
    rw [hp.2, hEq] at hfree
    exact hfree hseed

/-- Witness of C6: the store holds the alias of the first candidate, the
creation retries once and stores the second candidate. -/
theorem creation_alias_first_unused_witness :
    (HandleWebSite 1 ViewsOk (PostRequest "example.com")
        { collection := [{ Url := "x", Shortened := "ahovCJ" }], rand := fun k => k * 7 }
      = .ok (.Execute "views/pair.html"
               { Url := "example.com", Shortened := "127.0.0.1:22222/QX5bip" },
             { collection := [{ Url := "x", Shortened := "ahovCJ" },
                              { Url := "example.com", Shortened := "QX5bip" }],
               rand := RandAfter 2 (fun k => k * 7) })) ∧
    ∃ k, k ≤ 1 ∧ Candidate k (fun k => k * 7) = "QX5bip" ∧
      ¬ HasAlias [{ Url := "x", Shortened := "ahovCJ" }] (Candidate k (fun k => k * 7)) := by
  have h : HandleWebSite 1 ViewsOk (PostRequest "example.com")
        { collection := [{ Url := "x", Shortened := "ahovCJ" }], rand := fun k => k * 7 }
      = .ok (.Execute "views/pair.html"
               { Url := "example.com", Shortened := "127.0.0.1:22222/QX5bip" },
             { collection := [{ Url := "x", Shortened := "ahovCJ" },
                              { Url := "example.com", Shortened := "QX5bip" }],
               rand := RandAfter 2 (fun k => k * 7) }) := rfl
  refine ⟨h, ?_⟩
  obtain ⟨k, hk, _, hfree, hadd, _, _⟩ :=
    (creation_alias_first_unused 1 ViewsOk (PostRequest "example.com") _ _ _ rfl rfl rfl).1.1 h
  refine ⟨k, hk, ?_, hfree⟩
  rw [AddUrlPair_eq, Except.ok.injEq] at hadd
  have hp := List.append_cancel_left hadd
  simp only [PostRequest, if_true, List.cons.injEq, ShortPair.mk.injEq, and_true,
    true_and] at hp
  exact hp

/-- C8: postcondition of one completed creation request. If the handler returns
on a `POST /` request whose form parses, for any value of the field
`source_url`, then the store is the previous store followed by exactly one new
pair, which is the submitted value verbatim with a bare alias of 6 characters of
`CHARSET`, and, the template being rendered without error, the pair shown to
the caller holds the submitted value and `IP + ":" + PORT + "/" + alias`, which
is `"127.0.0.1:22222/"` followed by the stored alias. -/
theorem creation_postcondition (fuel : Nat) (views : Views) (req : Request)
    (s s' : Server) (resp : Response)
    (hroot : req.Path = "/") (hmethod : req.Method = "POST") (hform : req.ParseForm = none)
    (h : HandleWebSite fuel views req s = .ok (resp, s')) :
    ∃ shortUrl, shortUrl.length = 6 ∧ (∀ c ∈ shortUrl.data, c ∈ CHARSET.data) ∧
      s'.collection
        = s.collection ++ [{ Url := req.FormValue "source_url", Shortened := shortUrl }] ∧
      IP ++ ":" ++ Itoa PORT ++ "/" ++ shortUrl = "127.0.0.1:22222/" ++ shortUrl ∧
      (views.ParseFiles "views/pair.html" = none →
        views.Execute "views/pair.html"
          { Url := req.FormValue "source_url",
            Shortened := IP ++ ":" ++ Itoa PORT ++ "/" ++ shortUrl } = none →
        resp = .Execute "views/pair.html"
          { Url := req.FormValue "source_url",
            Shortened := "127.0.0.1:22222/" ++ shortUrl }) := by
  rw [HandleWebSite_post fuel views req s hroot hmethod] at h
  obtain ⟨k, _, _, _, hc, _, hresp⟩ := HandlePost_ok fuel views req s resp s' hform h
  refine ⟨Candidate k s.rand, Candidate_length k s.rand, Candidate_mem k s.rand, hc,
    shown_url_eq _, ?_⟩
  intro hp he
  rw [shown_url_eq] at he
  rw [hresp]
  simp only [PostResponse, hp, he]

/-- Witness of C8: a creation with the empty string as submitted URL. -/
theorem creation_postcondition_witness :
    HandleWebSite 0 ViewsOk (PostRequest "")
        { collection := [{ Url := "x", Shortened := "abc123" }], rand := fun k => k * 7 }
      = .ok (.Execute "views/pair.html" { Url := "", Shortened := "127.0.0.1:22222/ahovCJ" },
             { collection := [{ Url := "x", Shortened := "abc123" },
                              { Url := "", Shortened := "ahovCJ" }],
               rand := RandAfter 1 (fun k => k * 7) }) ∧
    ∃ shortUrl, shortUrl.length = 6 ∧
      ([{ Url := "x", Shortened := "abc123" }, { Url := "", Shortened := "ahovCJ" }] : Collection)
        = [{ Url := "x", Shortened := "abc123" }] ++ [{ Url := "", Shortened := shortUrl }] :=
  ⟨rfl,
   (creation_postcondition 0 ViewsOk (PostRequest "")
      { collection := [{ Url := "x", Shortened := "abc123" }], rand := fun k => k * 7 }
      { collection := [{ Url := "x", Shortened := "abc123" },
                       { Url := "", Shortened := "ahovCJ" }],
        rand := RandAfter 1 (fun k => k * 7) }
      (.Execute "views/pair.html" { Url := "", Shortened := "127.0.0.1:22222/ahovCJ" })
      rfl rfl rfl rfl).elim (fun a ha => ⟨a, ha.1, ha.2.2.1⟩)⟩

theorem HandleWebSite_after_add (fuel : Nat) (views : Views) (req : Request)
    (collection : Collection) (r : Rand) (originalUrl shortUrl : String)
    (hne : shortUrl ≠ "") (hfree : ¬ HasAlias collection shortUrl)
    (hpath : req.Path = "/" ++ shortUrl) :
    HandleWebSite fuel views req
        { collection := collection ++ [{ Url := originalUrl, Shortened := shortUrl }], rand := r }
      = .ok (if originalUrl = NO_SUCH_DOCUMENT_ERROR then ServeFile req "./views/error.html"
             else .Redirect (RedirectTarget originalUrl) StatusSeeOther,
             { collection := collection ++ [{ Url := originalUrl, Shortened := shortUrl }],
               rand := r }) := by
  apply HandleWebSite_resolve fuel views req _ shortUrl originalUrl
  · rw [hpath]
    exact slash_append_ne_root shortUrl hne
  · rw [hpath]
    exact SliceFrom1_slash_append shortUrl
  · simp only [GetOriginalUrl, FindOne_append_new collection originalUrl shortUrl hfree]

theorem no_scheme_of_sentinel :
    HasPrefix NO_SUCH_DOCUMENT_ERROR "http://" = false ∧
      HasPrefix NO_SUCH_DOCUMENT_ERROR "https://" = false := by decide

/-- The round trip without a scheme holds for every original URL other than
the not-found value. -/
theorem roundtrip_without_scheme_of_ne_sentinel (fuel : Nat) (views : Views) (req : Request)
    (collection : Collection) (r : Rand) (originalUrl shortUrl : String)
    (hne : shortUrl ≠ "") (hfree : ¬ HasAlias collection shortUrl)
    (h1 : HasPrefix originalUrl "http://" = false)
    (h2 : HasPrefix originalUrl "https://" = false)
    (hs : originalUrl ≠ NO_SUCH_DOCUMENT_ERROR)
    (hpath : req.Path = "/" ++ shortUrl) :
    ∃ c', AddUrlPair collection originalUrl shortUrl = .ok c' ∧
      HandleWebSite fuel views req { collection := c', rand := r }
        = .ok (.Redirect ("http://" ++ originalUrl) 303, { collection := c', rand := r }) := by
  refine ⟨_, AddUrlPair_eq _ _ _, ?_⟩
  rw [HandleWebSite_after_add fuel views req collection r originalUrl shortUrl hne hfree hpath,
    if_neg hs, RedirectTarget_of_no_scheme originalUrl h1 h2]
  rfl

/-- C3, at the failing input: the original URL `"dnf"` begins with neither
`http://` nor `https://` and the empty store holds no pair with the alias
`"abc123"`, yet after `AddUrlPair("dnf", "abc123")` the request for the path
`/abc123` is answered with the error page and not with a redirect to
`http://dnf`. -/
theorem roundtrip_without_scheme_fails_on_sentinel :
    HasPrefix "dnf" "http://" = false ∧ HasPrefix "dnf" "https://" = false ∧
    ¬ HasAlias [] "abc123" ∧
    AddUrlPair [] "dnf" "abc123" = .ok [{ Url := "dnf", Shortened := "abc123" }] ∧
    GetOriginalUrl [{ Url := "dnf", Shortened := "abc123" }] "abc123" = .ok "dnf" ∧
    HandleWebSite 0 ViewsOk (GetRequest "/abc123")
        { collection := [{ Url := "dnf", Shortened := "abc123" }], rand := fun _ => 0 }
      = .ok (.File "./views/error.html",
             { collection := [{ Url := "dnf", Shortened := "abc123" }], rand := fun _ => 0 }) ∧
    HandleWebSite 0 ViewsOk (GetRequest "/abc123")
        { collection := [{ Url := "dnf", Shortened := "abc123" }], rand := fun _ => 0 }
      ≠ .ok (.Redirect "http://dnf" 303,
             { collection := [{ Url := "dnf", Shortened := "abc123" }], rand := fun _ => 0 }) := by
  have h : HandleWebSite 0 ViewsOk (GetRequest "/abc123")
        { collection := [{ Url := "dnf", Shortened := "abc123" }], rand := fun _ => 0 }
      = .ok (.File "./views/error.html",
             { collection := [{ Url := "dnf", Shortened := "abc123" }], rand := fun _ => 0 }) :=
    rfl
  refine ⟨by decide, by decide, by decide, rfl, rfl, h, ?_⟩
  rw [h]
  intro hEq
  simp only [Except.ok.injEq, Prod.mk.injEq] at hEq
  exact absurd hEq.1 (by decide)

/-- C4: round trip with a scheme already present. For every store that holds no
pair with the alias and every original URL that begins with `http://` or
`https://`, `AddUrlPair` returns and, on the store it leaves, a request for the
path `"/" + alias` is answered with a 303 redirect whose target is exactly the
original URL; the store is not changed by the request. -/
theorem roundtrip_with_scheme (fuel : Nat) (views : Views) (req : Request)
    (collection : Collection) (r : Rand) (originalUrl shortUrl : String)
    (hne : shortUrl ≠ "") (hfree : ¬ HasAlias collection shortUrl)
    (hscheme : HasPrefix originalUrl "http://" = true ∨ HasPrefix originalUrl "https://" = true)
    (hpath : req.Path = "/" ++ shortUrl) :
    ∃ c', AddUrlPair collection originalUrl shortUrl = .ok c' ∧
      HandleWebSite fuel views req { collection := c', rand := r }
        = .ok (.Redirect originalUrl 303, { collection := c', rand := r }) := by
  refine ⟨_, AddUrlPair_eq _ _ _, ?_⟩
  have hs : originalUrl ≠ NO_SUCH_DOCUMENT_ERROR := by
    intro hEq
    rw [hEq, no_scheme_of_sentinel.1, no_scheme_of_sentinel.2] at hscheme
    simp at hscheme
  rw [HandleWebSite_after_add fuel views req collection r originalUrl shortUrl hne hfree hpath,
    if_neg hs, RedirectTarget_of_scheme originalUrl hscheme]
  rfl

/-- Witness of C4: the pair `("https://example.com", "abc123")` on the empty
store. -/
theorem roundtrip_with_scheme_witness :
    ∃ c', AddUrlPair [] "https://example.com" "abc123" = .ok c' ∧
      HandleWebSite 0 ViewsOk (GetRequest "/abc123") { collection := c', rand := fun _ => 0 }
        = .ok (.Redirect "https://example.com" 303,
               { collection := c', rand := fun _ => 0 }) :=
  roundtrip_with_scheme 0 ViewsOk (GetRequest "/abc123") [] (fun _ => 0)
    "https://example.com" "abc123" (by decide) (by decide) (by decide) (by decide)

theorem ServeFile_ne_Redirect (req : Request) (name url : String) (code : Nat) :
    ServeFile req name ≠ .Redirect url code := by
  unfold ServeFile
  split
  · intro h
    cases h
  · split
    · intro h
      cases h
    · intro h
      cases h

/-- The three outcomes of `http.ServeFile` on concrete paths: a plain path gets
the file, a path with a `..` element gets `400`, a path that ends in
`/index.html` gets the redirect; two dots inside an element are not a `..`
element. -/
theorem ServeFile_outcomes :
    ServeFile (GetRequest "/zzzzzz") "./views/error.html" = .File "./views/error.html" ∧
    ServeFile (GetRequest "/a/../b") "./views/error.html" = .Error "invalid URL path" 400 ∧
    ServeFile (GetRequest "/a..b") "./views/error.html" = .File "./views/error.html" ∧
    ServeFile (GetRequest "/x/index.html") "./views/error.html" = .LocalRedirect "./" 301 ∧
    ServeFile (GetRequest "/") "./views/index.html" = .File "./views/index.html" := by
  refine ⟨?_, ?_, ?_, ?_, ?_⟩ <;> rfl

/-- For every store and every alias that no stored pair has, `GetOriginalUrl`
returns `NO_SUCH_DOCUMENT_ERROR`, and the handler, on a request for the
non-root path `"/" + alias`, calls `http.ServeFile` on the error page; the error
page is served if the path has no `..` element and does not end in
`/index.html`. -/
theorem not_found_calls_ServeFile (collection : Collection) (shortUrl : String)
    (h : ¬ HasAlias collection shortUrl) (fuel : Nat) (views : Views) (req : Request)
    (r : Rand) (hpath : req.Path = "/" ++ shortUrl) (hroot : req.Path ≠ "/") :
    GetOriginalUrl collection shortUrl = .ok NO_SUCH_DOCUMENT_ERROR ∧
    HandleWebSite fuel views req { collection := collection, rand := r }
      = .ok (ServeFile req "./views/error.html", { collection := collection, rand := r }) ∧
    (containsDotDot req.Path = false → HasSuffix req.Path "/index.html" = false →
      ServeFile req "./views/error.html" = .File "./views/error.html") := by
  refine ⟨GetOriginalUrl_absent collection shortUrl h, ?_, ?_⟩
  · have hslice : SliceFrom1 req.Path = .ok shortUrl := by
      rw [hpath]
      exact SliceFrom1_slash_append shortUrl
    rw [HandleWebSite_resolve fuel views req _ shortUrl NO_SUCH_DOCUMENT_ERROR hroot hslice
      (GetOriginalUrl_absent collection shortUrl h)]
    simp
  · intro h1 h2
    simp [ServeFile, h1, h2]

/-- C5, at the failing input: no pair of the empty store has the alias
`"index.html"` and `GetOriginalUrl` returns `NO_SUCH_DOCUMENT_ERROR`, yet the
handler, on the request for the non-root path `/index.html`, does not serve the
error page: the call of `http.ServeFile` with this request answers with a
redirect to `./` with status 301. -/
theorem not_found_index_html_is_redirected :
    ¬ HasAlias [] "index.html" ∧
    GetOriginalUrl [] "index.html" = .ok NO_SUCH_DOCUMENT_ERROR ∧
    (GetRequest "/index.html").Path = "/" ++ "index.html" ∧
    (GetRequest "/index.html").Path ≠ "/" ∧
    HandleWebSite 0 ViewsOk (GetRequest "/index.html") { collection := [], rand := fun _ => 0 }
      = .ok (.LocalRedirect "./" 301, { collection := [], rand := fun _ => 0 }) ∧
    HandleWebSite 0 ViewsOk (GetRequest "/index.html") { collection := [], rand := fun _ => 0 }
      ≠ .ok (.File "./views/error.html", { collection := [], rand := fun _ => 0 }) := by
  have h : HandleWebSite 0 ViewsOk (GetRequest "/index.html")
        { collection := [], rand := fun _ => 0 }
      = .ok (.LocalRedirect "./" 301, { collection := [], rand := fun _ => 0 }) := rfl
  refine ⟨by decide, rfl, by decide, by decide, h, ?_⟩
  rw [h]
  intro hEq
  simp only [Except.ok.injEq, Prod.mk.injEq] at hEq
  exact absurd hEq.1 (by decide)

theorem HandleWebSite_resolve_total (fuel : Nat) (views : Views) (req : Request) (s : Server)
    (hroot : req.Path ≠ "/") (hne : req.Path ≠ "") :
    ∃ originalUrl,
      GetOriginalUrl s.collection (String.mk (req.Path.data.drop 1)) = .ok originalUrl ∧
      HandleWebSite fuel views req s
        = .ok (if originalUrl = NO_SUCH_DOCUMENT_ERROR then ServeFile req "./views/error.html"
               else .Redirect (RedirectTarget originalUrl) StatusSeeOther, s) := by
  obtain ⟨originalUrl, hget, _⟩ :=
    GetOriginalUrl_total s.collection (String.mk (req.Path.data.drop 1))
  exact ⟨originalUrl, hget, HandleWebSite_resolve fuel views req s _ originalUrl hroot
    (SliceFrom1_of_ne_empty req.Path hne) hget⟩

/-- C7: resolution is read-only and repeatable. A request for a non-root path
is answered, with the original URL that `GetOriginalUrl` computes from the
store, and leaves the collection and the random source unchanged; so the same
request made a second time, on the state that the first one left, gets the
same response (the same redirect target or the same error page) and leaves
the same state again. -/
theorem resolution_read_only (fuel : Nat) (views : Views) (req : Request) (s : Server)
    (hroot : req.Path ≠ "/") (hne : req.Path ≠ "") :
    (∃ originalUrl resp,
      GetOriginalUrl s.collection (String.mk (req.Path.data.drop 1)) = .ok originalUrl ∧
      resp = (if originalUrl = NO_SUCH_DOCUMENT_ERROR then ServeFile req "./views/error.html"
              else Response.Redirect (RedirectTarget originalUrl) StatusSeeOther) ∧
      HandleWebSite fuel views req s = .ok (resp, s)) ∧
    ∀ resp1 s1 resp2 s2,
      HandleWebSite fuel views req s = .ok (resp1, s1) →
      HandleWebSite fuel views req s1 = .ok (resp2, s2) →
      s1 = s ∧ s2 = s ∧ resp2 = resp1 := by
  obtain ⟨originalUrl, hget, hh⟩ := HandleWebSite_resolve_total fuel views req s hroot hne
  refine ⟨⟨originalUrl, _, hget, rfl, hh⟩, ?_⟩
  intro resp1 s1 resp2 s2 h1 h2
  rw [hh, Except.ok.injEq, Prod.mk.injEq] at h1
  obtain ⟨hr1, hs1⟩ := h1
  subst hs1
  rw [hh, Except.ok.injEq, Prod.mk.injEq] at h2
  obtain ⟨hr2, hs2⟩ := h2
  exact ⟨rfl, hs2.symm, by rw [← hr1, ← hr2]⟩

/-- Witness of C7: the stored alias `"abc123"` resolved twice. -/
theorem resolution_read_only_witness :
    HandleWebSite 0 ViewsOk (GetRequest "/abc123")
        { collection := [{ Url := "example.com", Shortened := "abc123" }], rand := fun _ => 0 }
      = .ok (.Redirect "http://example.com" 303,
             { collection := [{ Url := "example.com", Shortened := "abc123" }],
               rand := fun _ => 0 }) ∧
    ∀ resp2 s2,
      HandleWebSite 0 ViewsOk (GetRequest "/abc123")
          { collection := [{ Url := "example.com", Shortened := "abc123" }], rand := fun _ => 0 }
        = .ok (resp2, s2) →
      resp2 = .Redirect "http://example.com" 303 :=
  ⟨rfl, fun resp2 s2 h2 =>
    ((resolution_read_only 0 ViewsOk (GetRequest "/abc123")
        { collection := [{ Url := "example.com", Shortened := "abc123" }], rand := fun _ => 0 }
        (by decide) (by decide)).2 _ _ resp2 s2 rfl h2).2.2⟩

theorem RedirectTarget_idempotent (u : String) :
    RedirectTarget (RedirectTarget u) = RedirectTarget u :=
  RedirectTarget_of_scheme _ (RedirectTarget_scheme u)

theorem RedirectTarget_suffix (u : String) : u.data <:+ (RedirectTarget u).data := by
  unfold RedirectTarget
  split
  · exact List.suffix_refl _
  · rw [String.data_append]
    exact List.suffix_append _ _

/-- C10: whenever the handler issues a redirect for a non-root path, the value
that `GetOriginalUrl` returned is the URL of a stored pair with the requested
alias and differs from `"dnf"`, the status is 303, the target begins with
`http://` or `https://` (compared character by character) and has the stored
URL as a suffix; conversely every value other than `"dnf"` is redirected.
The scheme rule is idempotent: applied to its own output it returns that output
unchanged. -/
theorem redirect_has_scheme (fuel : Nat) (views : Views) (req : Request) (s : Server)
    (hroot : req.Path ≠ "/") :
    (∀ url code s',
      HandleWebSite fuel views req s = .ok (.Redirect url code, s') →
      code = 303 ∧
      (HasPrefix url "http://" = true ∨ HasPrefix url "https://" = true) ∧
      (∃ pair ∈ s.collection, SliceFrom1 req.Path = .ok pair.Shortened ∧
        GetOriginalUrl s.collection pair.Shortened = .ok pair.Url ∧
        pair.Url ≠ "dnf" ∧ url = RedirectTarget pair.Url ∧ pair.Url.data <:+ url.data) ∧
      RedirectTarget url = url) ∧
    (∀ shortUrl originalUrl,
      SliceFrom1 req.Path = .ok shortUrl →
      GetOriginalUrl s.collection shortUrl = .ok originalUrl → originalUrl ≠ "dnf" →
      HandleWebSite fuel views req s = .ok (.Redirect (RedirectTarget originalUrl) 303, s)) ∧
    ∀ u, RedirectTarget (RedirectTarget u) = RedirectTarget u := by
  refine ⟨?_, ?_, RedirectTarget_idempotent⟩
  · intro url code s' h
    by_cases hne : req.Path = ""
    · have hs : SliceFrom1 req.Path = .error .panic := by
        rw [hne]
        rfl
      simp [HandleWebSite, hroot, hs] at h
    · obtain ⟨originalUrl, hget, hh⟩ := HandleWebSite_resolve_total fuel views req s hroot hne
      rw [hh] at h
      by_cases hd : originalUrl = NO_SUCH_DOCUMENT_ERROR
      · simp only [hd, if_true, Except.ok.injEq, Prod.mk.injEq] at h
        exact absurd h.1 (ServeFile_ne_Redirect _ _ _ _)
      · simp only [hd, if_false, Except.ok.injEq, Prod.mk.injEq, Response.Redirect.injEq] at h
        obtain ⟨⟨hurl, hcode⟩, _⟩ := h
        subst hurl
        obtain ⟨o, hget', hcase⟩ :=
          GetOriginalUrl_total s.collection (String.mk (req.Path.data.drop 1))
        rw [hget, Except.ok.injEq] at hget'
        subst hget'
        rcases hcase with hcase | ⟨pair, hm, hsh, hu⟩
        · exact absurd hcase hd
        · subst hu
          refine ⟨hcode.symm, RedirectTarget_scheme _, ⟨pair, hm, ?_, ?_, hd, rfl,
            RedirectTarget_suffix _⟩, RedirectTarget_idempotent _⟩
          · rw [hsh]
            exact SliceFrom1_of_ne_empty req.Path hne
          · rw [hsh]
            exact hget
  · intro shortUrl originalUrl hslice hget hd
    have hd' : originalUrl ≠ NO_SUCH_DOCUMENT_ERROR := hd
    rw [HandleWebSite_resolve fuel views req s shortUrl originalUrl hroot hslice hget,
      if_neg hd']
    rfl

/-- Witness of C10: the stored URL `"example.com"` is redirected to
`"http://example.com"`. -/
theorem redirect_has_scheme_witness :
    HandleWebSite 0 ViewsOk (GetRequest "/abc123")
        { collection := [{ Url := "example.com", Shortened := "abc123" }], rand := fun _ => 0 }
      = .ok (.Redirect "http://example.com" 303,
             { collection := [{ Url := "example.com", Shortened := "abc123" }],
               rand := fun _ => 0 }) ∧
    (HasPrefix "http://example.com" "http://" = true ∨
      HasPrefix "http://example.com" "https://" = true) ∧
    RedirectTarget "http://example.com" = "http://example.com" :=
  ⟨rfl,
   ((redirect_has_scheme 0 ViewsOk (GetRequest "/abc123")
      { collection := [{ Url := "example.com", Shortened := "abc123" }], rand := fun _ => 0 }
      (by decide)).1 "http://example.com" 303 _ rfl).2.1,
   ((redirect_has_scheme 0 ViewsOk (GetRequest "/abc123")
      { collection := [{ Url := "example.com", Shortened := "abc123" }], rand := fun _ => 0 }
      (by decide)).1 "http://example.com" 303 _ rfl).2.2.2⟩

/-! ## The alias space -/

theorem CharOfDraw_getElem (d : Nat) (h : d % CHARSET.length < CHARSET.data.length) :
    CHARSET.data[d % CHARSET.length] = CharOfDraw d := by
  have := CharOfDraw_lookup d
  rw [List.getElem?_eq_getElem h] at this
  exact Option.some.inj this

theorem CharOfDraw_inj (a b : Nat) :
    CharOfDraw a = CharOfDraw b ↔ a % CHARSET.length = b % CHARSET.length := by
  have ha : a % CHARSET.length < CHARSET.data.length := Nat.mod_lt _ (by decide)
  have hb : b % CHARSET.length < CHARSET.data.length := Nat.mod_lt _ (by decide)
  rw [← CharOfDraw_getElem a ha, ← CharOfDraw_getElem b hb]
  exact CHARSET_nodup.getElem_inj_iff

theorem AliasChars_inj (n : Nat) (r1 r2 : Rand) :
    AliasChars n r1 = AliasChars n r2 ↔
      ∀ i, i < n → r1 i % CHARSET.length = r2 i % CHARSET.length := by
  simp only [AliasChars, List.map_inj_left, List.mem_range, CharOfDraw_inj]

theorem AliasChars_surj (l : List Char) (h : ∀ c ∈ l, c ∈ CHARSET.data) :
    AliasChars l.length (fun i => CHARSET.data.indexOf (l.getD i 'a')) = l := by
  apply List.ext_getElem (AliasChars_length _ _)
  intro i h1 h2
  have hm : l[i] ∈ CHARSET.data := h _ (List.getElem_mem h2)
  have hlt : CHARSET.data.indexOf l[i] < CHARSET.data.length := List.indexOf_lt_length.2 hm
  have hmod : CHARSET.data.indexOf l[i] % CHARSET.length = CHARSET.data.indexOf l[i] :=
    Nat.mod_eq_of_lt hlt
  simp only [AliasChars, List.getElem_map, List.getElem_range, CharOfDraw,
    List.getD_eq_getElem _ _ h2, hmod]
  rw [List.getD_eq_getElem _ _ hlt]
  exact List.getElem_indexOf hlt

theorem Generated_eq_AliasSpace : Generated = AliasSpace := by
  ext short
  constructor
  · rintro ⟨r, r', h⟩
    rw [GenerateShortenedUrl_eq, Except.ok.injEq, Prod.mk.injEq] at h
    rw [← h.1]
    exact ⟨AliasChars_length LENGTH r, AliasChars_mem LENGTH r⟩
  · rintro ⟨hl, hm⟩
    refine ⟨fun i => CHARSET.data.indexOf (short.data.getD i 'a'),
      RandAfter 1 (fun i => CHARSET.data.indexOf (short.data.getD i 'a')), ?_⟩
    rw [GenerateShortenedUrl_eq]
    have hl' : short.data.length = LENGTH := hl
    have := AliasChars_surj short.data hm
    rw [hl'] at this
    rw [this]

theorem RandOfIndices_mod (idx : Fin LENGTH → Fin CHARSET.length) (i : Nat) (h : i < LENGTH) :
    RandOfIndices idx i % CHARSET.length = (idx ⟨i, h⟩).val := by
  simp only [RandOfIndices, h, dif_pos]
  exact Nat.mod_eq_of_lt (idx ⟨i, h⟩).isLt

theorem AliasOfIndices_injective : Function.Injective AliasOfIndices := by
  intro idx1 idx2 h
  have hd : AliasChars LENGTH (RandOfIndices idx1) = AliasChars LENGTH (RandOfIndices idx2) :=
    congrArg String.data h
  rw [AliasChars_inj] at hd
  funext ⟨i, hi⟩
  apply Fin.ext
  have := hd i hi
  rwa [RandOfIndices_mod idx1 i hi, RandOfIndices_mod idx2 i hi] at this

theorem AliasSpace_eq_range : AliasSpace = Set.range AliasOfIndices := by
  ext short
  constructor
  · rintro ⟨hl, hm⟩
    have hl' : short.data.length = LENGTH := hl
    have hs := AliasChars_surj short.data hm
    rw [hl'] at hs
    refine ⟨fun i => ⟨CHARSET.data.indexOf (short.data.getD i.val 'a') % CHARSET.length,
      Nat.mod_lt _ (by decide)⟩, ?_⟩
    apply String.ext
    refine Eq.trans ?_ hs
    show AliasChars LENGTH _ = AliasChars LENGTH _
    rw [AliasChars_inj]
    intro i hi
    rw [RandOfIndices_mod _ i hi]
  · rintro ⟨idx, rfl⟩
    exact ⟨AliasChars_length LENGTH _, AliasChars_mem LENGTH _⟩

theorem AliasSpace_ncard : AliasSpace.ncard = 62 ^ 6 := by
  rw [AliasSpace_eq_range, ← Set.image_univ,
    Set.ncard_image_of_injective _ AliasOfIndices_injective, Set.ncard_univ,
    Nat.card_eq_fintype_card, Fintype.card_fun, Fintype.card_fin, Fintype.card_fin]
  rfl

theorem CHARSET_alnum_of_mem : ∀ c ∈ CHARSET.data,
    c.isLower = true ∨ c.isUpper = true ∨ c.isDigit = true := by decide

theorem ofNat_mem_CHARSET : ∀ n, n < 123 →
    (97 ≤ n ∧ n ≤ 122) ∨ (65 ≤ n ∧ n ≤ 90) ∨ (48 ≤ n ∧ n ≤ 57) →
    Char.ofNat n ∈ CHARSET.data := by decide

theorem CHARSET_mem_of_alnum (c : Char)
    (h : c.isLower = true ∨ c.isUpper = true ∨ c.isDigit = true) : c ∈ CHARSET.data := by
  have hc : Char.ofNat c.toNat = c := Char.ofNat_toNat c
  rw [← hc]
  simp only [Char.isLower, Char.isUpper, Char.isDigit, Bool.and_eq_true, decide_eq_true_eq,
    ge_iff_le] at h
  have hle : ∀ (a b : UInt32), a ≤ b ↔ a.toNat ≤ b.toNat := fun a b => Iff.rfl
  simp only [hle] at h
  have e1 : UInt32.toNat 97 = 97 := rfl
  have e2 : UInt32.toNat 122 = 122 := rfl
  have e3 : UInt32.toNat 65 = 65 := rfl
  have e4 : UInt32.toNat 90 = 90 := rfl
  have e5 : UInt32.toNat 48 = 48 := rfl
  have e6 : UInt32.toNat 57 = 57 := rfl
  rw [e1, e2, e3, e4, e5, e6] at h
  have ht : c.toNat = c.val.toNat := rfl
  rw [ht]
  exact ofNat_mem_CHARSET _ (by omega) h
theorem GenerateShortenedUrl_alias_eq_iff (r1 r2 : Rand) :
    (GenerateShortenedUrl r1).map Prod.fst = (GenerateShortenedUrl r2).map Prod.fst ↔
      ∀ i : Fin LENGTH, r1 i % CHARSET.length = r2 i % CHARSET.length := by
  rw [GenerateShortenedUrl_eq, GenerateShortenedUrl_eq]
  have hmk : String.mk (AliasChars LENGTH r1) = String.mk (AliasChars LENGTH r2) ↔
      AliasChars LENGTH r1 = AliasChars LENGTH r2 :=
    ⟨fun h => congrArg String.data h, fun h => congrArg String.mk h⟩
  simp only [Except.map, Except.ok.injEq, hmk, AliasChars_inj]
  constructor
  · intro h i
    exact h i.val i.isLt
  · intro h i hi
    exact h ⟨i, hi⟩

/-- C9: `CHARSET` consists of exactly 62 pairwise distinct characters, which
are the 26 lowercase letters, the 26 uppercase letters and the 10 digits; two
random sources give the same alias exactly when their first six indices agree,
so distinct sequences of six indices yield distinct aliases; and the set of the
strings that `GenerateShortenedUrl` can return is exactly the set of all
strings of length 6 over `CHARSET`, which has 62^6 = 56800235584 elements. -/
theorem alias_space_size :
    CHARSET.length = 62 ∧ CHARSET.data.Nodup ∧
    (∀ c : Char, c ∈ CHARSET.data ↔ c.isLower = true ∨ c.isUpper = true ∨ c.isDigit = true) ∧
    (CHARSET.data.filter Char.isLower).length = 26 ∧
    (CHARSET.data.filter Char.isUpper).length = 26 ∧
    (CHARSET.data.filter Char.isDigit).length = 10 ∧
    (∀ r1 r2 : Rand,
      (GenerateShortenedUrl r1).map Prod.fst = (GenerateShortenedUrl r2).map Prod.fst ↔
        ∀ i : Fin LENGTH, r1 i % CHARSET.length = r2 i % CHARSET.length) ∧
    Function.Injective AliasOfIndices ∧
    Generated = AliasSpace ∧
    Generated.ncard = 62 ^ 6 ∧ 62 ^ 6 = 56800235584 := by
  refine ⟨CHARSET_length, CHARSET_nodup,
    fun c => ⟨CHARSET_alnum_of_mem c, CHARSET_mem_of_alnum c⟩, by decide, by decide, by decide,
    GenerateShortenedUrl_alias_eq_iff, AliasOfIndices_injective, Generated_eq_AliasSpace, ?_,
    by norm_num⟩
  rw [Generated_eq_AliasSpace]
  exact AliasSpace_ncard

end UrlShortener
